import Mathlib

/- Shallow embedding of the digitransit-geocoder OSM address pipeline
   (osm_pbf.py) and of the interpolation fraction computation of the
   HTTP API (app.py, InterpolateHandler.transform_es).

   Conventions of the embedding:
   - OSM tag mappings are association lists with unique keys; lookup takes
     the first matching entry, which coincides with dict lookup.
   - Locations (lon, lat) are rational pairs; the Python floats are modelled
     by exact rational arithmetic.
   - The address dictionary of osm_pbf.py is an association list with
     dict semantics: membership test, in-place value update, insertion.
   - The shapely polygon type is abstracted: the municipality lookup is
     parametrised by a containment test and a bounding-box function, as the
     geometry library is an external collaborator of the program.
   - The rtree index query with a degenerate point box returns the entries
     whose stored bounding box contains the point; we determinise the
     unspecified result order to insertion order.
   - Python falsiness of the optional municipality / unit strings (None or
     the empty string) is modelled explicitly. -/

abbrev Point := ℚ × ℚ

abbrev Tags := List (String × String)

/-- Dict-style lookup in a tag mapping: first entry with the given key. -/
def tagLookup (tags : Tags) (key : String) : Option String :=
  (tags.find? (fun t => t.1 == key)).map (fun t => t.2)

/-- A cached OSM node as stored by nodes_callback: tags, location, and the
extra slot for an associated street relation id (initially None). -/
structure OsmNode where
  tags : Tags
  lonlat : Point
  assoc : Option Nat
deriving DecidableEq

/-- A cached OSM way as stored by ways_callback: tags, ordered member node
ids, and the extra slot for an associated street relation id. -/
structure OsmWay where
  tags : Tags
  nds : List Nat
  assoc : Option Nat
deriving DecidableEq

/-- get_unit of osm_pbf.py: the unit is the addr:unit tag if present, else
the addr:staircase tag, else None; the main flag records whether the
entrance tag equals "main", but the final fall-through returns (None, False),
dropping the flag when no unit tag is present. -/
def get_unit (tags : Tags) : Option String × Bool :=
  let main := tagLookup tags "entrance" == some "main"
  match tagLookup tags "addr:unit" with
  | some u => (some u, main)
  | none =>
    match tagLookup tags "addr:staircase" with
    | some s => (some s, main)
    | none => (none, false)

/-- The key of the addresses dictionary: (municipality, street, number, unit). -/
abbrev AddressKey := Option String × String × String × Option String

/-- The addresses dictionary of osm_pbf.py, as an association list with
dict semantics. -/
abbrev Store := List (AddressKey × Point)

/-- Dict lookup in the address store. -/
def storeLookup : Store → AddressKey → Option Point
  | [], _ => none
  | e :: rest, k => if e.1 = k then some e.2 else storeLookup rest k

/-- Dict assignment in the address store: update in place if the key is
present, append otherwise. -/
def storeSet : Store → AddressKey → Point → Store
  | [], k, v => [(k, v)]
  | e :: rest, k, v => if e.1 = k then (k, v) :: rest else e :: storeSet rest k v

/-- Bounding box of a polygon, as returned by shapely polygon.bounds. -/
structure Box where
  minx : ℚ
  miny : ℚ
  maxx : ℚ
  maxy : ℚ
deriving DecidableEq

/-- The rtree intersection test of a stored bounding box against the
degenerate query box (x, y, x, y): the box contains the point. -/
def boxContainsPoint (b : Box) (p : Point) : Bool :=
  decide (b.minx ≤ p.1 ∧ p.1 ≤ b.maxx ∧ b.miny ≤ p.2 ∧ p.2 ≤ b.maxy)

/-- The municipality lookup loop inside add_address, together with the rtree
probe built at module load: candidates are the municipalities whose bounding
box contains the query point, and the first candidate whose polygon contains
the point wins; none if no candidate contains it. The polygon type and its
containment test come from the external geometry library and are parameters. -/
def lookupMunicipality {Poly : Type} (contains : Poly → Point → Bool)
    (bounds : Poly → Box) (ms : List (String × Poly)) (location : Point) :
    Option String :=
  ((ms.filter (fun m => boxContainsPoint (bounds m.2) location)).find?
    (fun m => contains m.2 location)).map (fun m => m.1)

/-- The municipality resolution at the top of add_address: if the passed
municipality is falsy (None or the empty string), run the locator; when the
locator finds nothing the falsy original value is kept. -/
def resolveMuni (locate : Point → Option String) (municipality : Option String)
    (location : Point) : Option String :=
  if municipality = none ∨ municipality = some "" then
    match locate location with
    | some name => some name
    | none => municipality
  else municipality

/-- add_address of osm_pbf.py: resolve the municipality, build the key; if
the key is already present, overwrite the stored location when the new
candidate has the main flag and keep the first location otherwise; if the
key is absent, insert. -/
def add_address (locate : Point → Option String) (store : Store)
    (street : String) (number : String) (location : Point)
    (unit : Option String) (main : Bool) (municipality : Option String) :
    Store :=
  let muni := resolveMuni locate municipality location
  let address : AddressKey := (muni, street, number, unit)
  match storeLookup store address with
  | some _ => if main then storeSet store address location else store
  | none => storeSet store address location

theorem storeLookup_storeSet_self (s : Store) (k : AddressKey) (v : Point) :
    storeLookup (storeSet s k v) k = some v := by
  induction s with
  | nil => simp [storeSet, storeLookup]
  | cons e rest ih =>
    by_cases h : e.1 = k
    · simp [storeSet, h, storeLookup]
    · simp [storeSet, h, storeLookup, ih]

theorem add_address_main_lookup (locate : Point → Option String) (s : Store)
    (street number : String) (location : Point) (unit : Option String)
    (municipality : Option String) :
    storeLookup
      (add_address locate s street number location unit true municipality)
      (resolveMuni locate municipality location, street, number, unit) =
      some location := by
  unfold add_address
  cases h : storeLookup s (resolveMuni locate municipality location, street, number, unit) with
  | none => simp [h, storeLookup_storeSet_self]
  | some v => simp [h, storeLookup_storeSet_self]

theorem add_address_nonmain_present (locate : Point → Option String) (s : Store)
    (street number : String) (location : Point) (unit : Option String)
    (municipality : Option String) (v : Point)
    (h : storeLookup s (resolveMuni locate municipality location, street, number, unit) = some v) :
    add_address locate s street number location unit false municipality = s := by
  unfold add_address
  simp [h]

/-- C1: for two submissions to the merge store with identical resolved key
where exactly one carries the main-entrance flag, the finally stored
location is the main-entrance submission location, in either submission
order (from any starting store). -/
theorem C1_merge_main_entrance_wins (locate : Point → Option String)
    (s0 : Store) (street number : String) (locA locB : Point)
    (unitA unitB : Option String) (muniA muniB : Option String)
    (hkey : ((resolveMuni locate muniA locA, street, number, unitA) : AddressKey) =
            (resolveMuni locate muniB locB, street, number, unitB)) :
    storeLookup
      (add_address locate (add_address locate s0 street number locA unitA false muniA)
        street number locB unitB true muniB)
      (resolveMuni locate muniB locB, street, number, unitB) = some locB ∧
    storeLookup
      (add_address locate (add_address locate s0 street number locB unitB true muniB)
        street number locA unitA false muniA)
      (resolveMuni locate muniB locB, street, number, unitB) = some locB := by
  constructor
  · exact add_address_main_lookup locate _ street number locB unitB muniB
  · have hB := add_address_main_lookup locate s0 street number locB unitB muniB
    have hkeyA : ((resolveMuni locate muniA locA, street, number, unitA) : AddressKey) =
        (resolveMuni locate muniB locB, street, number, unitB) := hkey
    rw [add_address_nonmain_present locate _ street number locA unitA muniA locB
      (by rw [hkeyA]; exact hB)]
    exact hB

/-- C1 witness: a concrete instantiation, locator finds nothing, empty
starting store, non-main at (0, 0) and main at (1, 1). -/
theorem C1_merge_main_entrance_wins_witness :
    storeLookup
      (add_address (fun _ => none)
        (add_address (fun _ => none) [] "S" "1" ((0 : ℚ), (0 : ℚ)) none false none)
        "S" "1" ((1 : ℚ), (1 : ℚ)) none true none)
      (resolveMuni (fun _ => none) none ((1 : ℚ), (1 : ℚ)), "S", "1", none) =
      some ((1 : ℚ), (1 : ℚ)) ∧
    storeLookup
      (add_address (fun _ => none)
        (add_address (fun _ => none) [] "S" "1" ((1 : ℚ), (1 : ℚ)) none true none)
        "S" "1" ((0 : ℚ), (0 : ℚ)) none false none)
      (resolveMuni (fun _ => none) none ((1 : ℚ), (1 : ℚ)), "S", "1", none) =
      some ((1 : ℚ), (1 : ℚ)) :=
  C1_merge_main_entrance_wins (fun _ => none) [] "S" "1"
    ((0 : ℚ), (0 : ℚ)) ((1 : ℚ), (1 : ℚ)) none none none none rfl

/-- C3 counterexample: a tag mapping containing only entrance = main. The
claim predicts a true main-entrance flag, but get_unit falls through to
(None, False) because no unit tag is present. -/
theorem C3_counterexample :
    tagLookup [("entrance", "main")] "entrance" = some "main" ∧
    (get_unit [("entrance", "main")]).2 = false := by
  constructor
  · rfl
  · rfl

/-- C3 amended: the unit is the addr:unit value if present, else the
addr:staircase value if present, else none; the main-entrance flag is true
iff the entrance tag equals "main" AND a unit is returned (without a unit
tag the flag is dropped by the fall-through branch). -/
theorem C3_get_unit_characterisation (tags : Tags) :
    (∀ u, tagLookup tags "addr:unit" = some u → (get_unit tags).1 = some u) ∧
    (tagLookup tags "addr:unit" = none →
      ∀ v, tagLookup tags "addr:staircase" = some v → (get_unit tags).1 = some v) ∧
    (tagLookup tags "addr:unit" = none → tagLookup tags "addr:staircase" = none →
      (get_unit tags).1 = none) ∧
    ((get_unit tags).2 = true ↔
      (tagLookup tags "entrance" = some "main" ∧ (get_unit tags).1 ≠ none)) := by
  cases hu : tagLookup tags "addr:unit" with
  | some u =>
    cases he : tagLookup tags "entrance" with
    | some e =>
      by_cases hm : e = "main"
      · subst hm
        refine ⟨fun x hx => ?_, by simp [hu], by simp [hu], ?_⟩
        · simp [get_unit, hu] at hx ⊢; exact hx
        · simp [get_unit, hu, he]
      · refine ⟨fun x hx => ?_, by simp [hu], by simp [hu], ?_⟩
        · simp [get_unit, hu] at hx ⊢; exact hx
        · simp [get_unit, hu, he, hm]
    | none =>
      refine ⟨fun x hx => ?_, by simp [hu], by simp [hu], ?_⟩
      · simp [get_unit, hu] at hx ⊢; exact hx
      · simp [get_unit, hu, he]
  | none =>
    cases hs : tagLookup tags "addr:staircase" with
    | some v =>
      cases he : tagLookup tags "entrance" with
      | some e =>
        by_cases hm : e = "main"
        · subst hm
          refine ⟨by simp [hu], fun _ x hx => ?_, by simp [hs], ?_⟩
          · simp [get_unit, hu, hs] at hx ⊢; exact hx
          · simp [get_unit, hu, hs, he]
        · refine ⟨by simp [hu], fun _ x hx => ?_, by simp [hs], ?_⟩
          · simp [get_unit, hu, hs] at hx ⊢; exact hx
          · simp [get_unit, hu, hs, he, hm]
      | none =>
        refine ⟨by simp [hu], fun _ x hx => ?_, by simp [hs], ?_⟩
        · simp [get_unit, hu, hs] at hx ⊢; exact hx
        · simp [get_unit, hu, hs, he]
    | none =>
      refine ⟨by simp [hu], by simp [hs], fun _ _ => ?_, ?_⟩
      · simp [get_unit, hu, hs]
      · simp [get_unit, hu, hs]

/-- C3 witness: a node tagged with addr:unit = A and entrance = main gets
unit A and a true main flag. -/
theorem C3_get_unit_characterisation_witness :
    (get_unit [("addr:unit", "A"), ("entrance", "main")]).1 = some "A" ∧
    (get_unit [("addr:unit", "A"), ("entrance", "main")]).2 = true := by
  have h := C3_get_unit_characterisation [("addr:unit", "A"), ("entrance", "main")]
  exact ⟨h.1 "A" rfl, h.2.2.2.mpr ⟨rfl, by rw [h.1 "A" rfl]; simp⟩⟩

/-- C4 counterexample: two submissions both flagged main-entrance with the
same key. The claim predicts the second is discarded (the existing record
was created by a main-entrance submission), but add_address overwrites on
every main-flagged submission: the stored location becomes (1, 1), not
(0, 0). -/
theorem C4_counterexample :
    storeLookup
      (add_address (fun _ => none)
        (add_address (fun _ => none) [] "S" "1" ((0 : ℚ), (0 : ℚ)) none true none)
        "S" "1" ((1 : ℚ), (1 : ℚ)) none true none)
      (none, "S", "1", none) = some ((1 : ℚ), (1 : ℚ)) ∧
    some ((1 : ℚ), (1 : ℚ)) ≠ some (((0 : ℚ), (0 : ℚ)) : Point) := by
  constructor
  · rfl
  · simp

/-- C4 amended: on submission, if the key is absent the candidate is
inserted; if the key is present the stored location is overwritten exactly
when the new candidate is flagged main-entrance, regardless of how the
existing record was flagged (the store keeps no flags); a present key with
a non-main candidate leaves the store unchanged. -/
theorem C4_add_address_characterisation (locate : Point → Option String)
    (s : Store) (street number : String) (location : Point)
    (unit : Option String) (municipality : Option String) (main : Bool) :
    (storeLookup s (resolveMuni locate municipality location, street, number, unit) = none →
      add_address locate s street number location unit main municipality =
        storeSet s (resolveMuni locate municipality location, street, number, unit) location) ∧
    (∀ v, storeLookup s (resolveMuni locate municipality location, street, number, unit) = some v →
      add_address locate s street number location unit true municipality =
        storeSet s (resolveMuni locate municipality location, street, number, unit) location) ∧
    (∀ v, storeLookup s (resolveMuni locate municipality location, street, number, unit) = some v →
      add_address locate s street number location unit false municipality = s) := by
  refine ⟨fun h => ?_, fun v h => ?_, fun v h => ?_⟩
  · unfold add_address; simp [h]
  · unfold add_address; simp [h]
  · unfold add_address; simp [h]

/-- C4 witness: with the key already present at (0, 0), a main-flagged
submission at (2, 3) overwrites, and a non-main submission leaves the
store unchanged. -/
theorem C4_add_address_characterisation_witness :
    add_address (fun _ => none) [((none, "S", "1", none), ((0 : ℚ), (0 : ℚ)))]
      "S" "1" ((2 : ℚ), (3 : ℚ)) none true none =
      [((none, "S", "1", none), ((2 : ℚ), (3 : ℚ)))] ∧
    add_address (fun _ => none) [((none, "S", "1", none), ((0 : ℚ), (0 : ℚ)))]
      "S" "1" ((2 : ℚ), (3 : ℚ)) none false none =
      [((none, "S", "1", none), ((0 : ℚ), (0 : ℚ)))] := by
  have h := C4_add_address_characterisation (fun _ => none)
    [((none, "S", "1", none), ((0 : ℚ), (0 : ℚ)))] "S" "1"
    ((2 : ℚ), (3 : ℚ)) none none true
  have h2 := C4_add_address_characterisation (fun _ => none)
    [((none, "S", "1", none), ((0 : ℚ), (0 : ℚ)))] "S" "1"
    ((2 : ℚ), (3 : ℚ)) none none false
  exact ⟨h.2.1 ((0 : ℚ), (0 : ℚ)) rfl, h2.2.2 ((0 : ℚ), (0 : ℚ)) rfl⟩

/-- The candidate submission derived from one cached node in the node loop
of main: require a housenumber tag; the street is the addr:street tag if
present, else the name of the associated street relation when the assoc
slot is truthy (a nonzero id); otherwise the node is skipped. The unit and
main flag come from get_unit. -/
def nodeCandidate (relName : Nat → String) (n : OsmNode) :
    Option (String × String × Point × Option String × Bool) :=
  match tagLookup n.tags "addr:housenumber" with
  | none => none
  | some number =>
    match tagLookup n.tags "addr:street" with
    | some street =>
      some (street, number, n.lonlat, (get_unit n.tags).1, (get_unit n.tags).2)
    | none =>
      match n.assoc with
      | some rid =>
        if rid ≠ 0 then
          some (relName rid, number, n.lonlat, (get_unit n.tags).1, (get_unit n.tags).2)
        else none
      | none => none

/-- One iteration of the node loop of main: submit the candidate to the
merge store when the node yields one. The names of associated street
relations are supplied by relName; the linker only assigns ids of cached
relations, all of which carry a name tag. -/
def processNode (locate : Point → Option String) (relName : Nat → String)
    (store : Store) (n : OsmNode) : Store :=
  match nodeCandidate relName n with
  | none => store
  | some (street, number, loc, unit, main) =>
    add_address locate store street number loc unit main none

theorem resolveMuni_none (locate : Point → Option String) (location : Point) :
    resolveMuni locate none location = locate location := by
  cases h : locate location <;> simp [resolveMuni, h]

/-- C2 counterexample: node A carries street S, number 1 and no entrance
tag at (0, 0); node B carries the same address tags plus entrance = main at
(1, 1), with no unit tag. Both yield candidates with the same key, but B's
candidate is not flagged main (get_unit drops the flag without a unit tag),
so processing A first leaves the stored location at (0, 0), not B's (1, 1). -/
theorem C2_counterexample :
    tagLookup [("addr:street", "S"), ("addr:housenumber", "1"), ("entrance", "main")]
      "entrance" = some "main" ∧
    storeLookup
      (processNode (fun _ => none) (fun _ => "")
        (processNode (fun _ => none) (fun _ => "") []
          ⟨[("addr:street", "S"), ("addr:housenumber", "1")], ((0 : ℚ), (0 : ℚ)), none⟩)
        ⟨[("addr:street", "S"), ("addr:housenumber", "1"), ("entrance", "main")],
          ((1 : ℚ), (1 : ℚ)), none⟩)
      (none, "S", "1", none) = some ((0 : ℚ), (0 : ℚ)) ∧
    some (((0 : ℚ), (0 : ℚ)) : Point) ≠ some (((1 : ℚ), (1 : ℚ)) : Point) := by
  refine ⟨rfl, rfl, by simp⟩

/-- C2 amended: end-to-end through the node loop and the merge store, if
node A yields a candidate that is not flagged main-entrance and node B
yields a candidate flagged main-entrance (which requires B to carry a unit
tag besides entrance = main) with the same street, number and unit, and the
locator resolves both locations to the same municipality, then the final
stored location is B's, in either processing order. -/
theorem C2_node_main_entrance_wins (locate : Point → Option String)
    (relName : Nat → String) (s0 : Store) (nA nB : OsmNode)
    (street number : String) (locA locB : Point) (unit : Option String)
    (hA : nodeCandidate relName nA = some (street, number, locA, unit, false))
    (hB : nodeCandidate relName nB = some (street, number, locB, unit, true))
    (hmuni : locate locA = locate locB) :
    storeLookup (processNode locate relName (processNode locate relName s0 nA) nB)
      (resolveMuni locate none locB, street, number, unit) = some locB ∧
    storeLookup (processNode locate relName (processNode locate relName s0 nB) nA)
      (resolveMuni locate none locB, street, number, unit) = some locB := by
  have hk : resolveMuni locate none locA = resolveMuni locate none locB := by
    rw [resolveMuni_none, resolveMuni_none, hmuni]
  constructor
  · simp only [processNode, hB]
    exact add_address_main_lookup locate _ street number locB unit none
  · simp only [processNode, hA, hB]
    have hmain := add_address_main_lookup locate s0 street number locB unit none
    rw [add_address_nonmain_present locate _ street number locA unit none locB
      (by rw [hk]; exact hmain)]
    exact hmain

/-- C2 witness: A at (0, 0) with unit tag U, B at (1, 1) with unit tag U
and entrance = main; both orders store B's location (1, 1). -/
theorem C2_node_main_entrance_wins_witness :
    storeLookup
      (processNode (fun _ => none) (fun _ => "")
        (processNode (fun _ => none) (fun _ => "") []
          ⟨[("addr:street", "S"), ("addr:housenumber", "1"), ("addr:unit", "U")],
            ((0 : ℚ), (0 : ℚ)), none⟩)
        ⟨[("addr:street", "S"), ("addr:housenumber", "1"), ("addr:unit", "U"),
            ("entrance", "main")], ((1 : ℚ), (1 : ℚ)), none⟩)
      (resolveMuni (fun _ => none) none ((1 : ℚ), (1 : ℚ)), "S", "1", some "U") =
      some ((1 : ℚ), (1 : ℚ)) ∧
    storeLookup
      (processNode (fun _ => none) (fun _ => "")
        (processNode (fun _ => none) (fun _ => "") []
          ⟨[("addr:street", "S"), ("addr:housenumber", "1"), ("addr:unit", "U"),
              ("entrance", "main")], ((1 : ℚ), (1 : ℚ)), none⟩)
        ⟨[("addr:street", "S"), ("addr:housenumber", "1"), ("addr:unit", "U")],
          ((0 : ℚ), (0 : ℚ)), none⟩)
      (resolveMuni (fun _ => none) none ((1 : ℚ), (1 : ℚ)), "S", "1", some "U") =
      some ((1 : ℚ), (1 : ℚ)) :=
  C2_node_main_entrance_wins (fun _ => none) (fun _ => "") []
    ⟨[("addr:street", "S"), ("addr:housenumber", "1"), ("addr:unit", "U")],
      ((0 : ℚ), (0 : ℚ)), none⟩
    ⟨[("addr:street", "S"), ("addr:housenumber", "1"), ("addr:unit", "U"),
        ("entrance", "main")], ((1 : ℚ), (1 : ℚ)), none⟩
    "S" "1" ((0 : ℚ), (0 : ℚ)) ((1 : ℚ), (1 : ℚ)) (some "U") rfl rfl rfl

/-- The side selection of InterpolateHandler.get: even numbers query the
vasen (left) side fields, odd numbers the oikea (right) side fields. -/
def interpolationSide (n : ℤ) : String :=
  if n % 2 = 0 then "vasen" else "oikea"

/-- An interpolated_address segment document: street name and per-side
minimum and maximum house numbers. The line geometry is carried separately
and not needed for the fraction computation. -/
structure Segment where
  nimi : String
  minVasen : ℤ
  maxVasen : ℤ
  minOikea : ℤ
  maxOikea : ℤ
deriving DecidableEq

/-- The min field of the selected side. -/
def sideMin (s : Segment) (side : String) : ℤ :=
  if side = "vasen" then s.minVasen else s.minOikea

/-- The max field of the selected side. -/
def sideMax (s : Segment) (side : String) : ℤ :=
  if side = "vasen" then s.maxVasen else s.maxOikea

/-- The fraction computation of InterpolateHandler.transform_es: 0.5 when
max equals min, otherwise (number - min) / (max - min). -/
def fraction (n mn mx : ℤ) : ℚ :=
  if mx = mn then 1 / 2 else ((n : ℚ) - (mn : ℚ)) / ((mx : ℚ) - (mn : ℚ))

/-- The segment search: the Elasticsearch query filters on equal street
name and min_side less-or-equal number less-or-equal max_side, and
transform_es takes the first hit. -/
def matchSegment (segs : List Segment) (name : String) (n : ℤ) : Option Segment :=
  segs.find? (fun s =>
    s.nimi == name && decide (sideMin s (interpolationSide n) ≤ n) &&
      decide (n ≤ sideMax s (interpolationSide n)))

/-- The full fraction pipeline: match a segment, then compute the fraction
for the side selected by the parity of the requested number. -/
def interpolationFraction (segs : List Segment) (name : String) (n : ℤ) : Option ℚ :=
  (matchSegment segs name n).map
    (fun s => fraction n (sideMin s (interpolationSide n)) (sideMax s (interpolationSide n)))

/-- C5: for a matched segment, the fraction is 0.5 when the side range is
degenerate, and (number - min) / (max - min), a value between 0 and 1,
otherwise; the concrete instances of the spec hold, and for a fixed matched
segment and side the fraction is monotone non-decreasing in the requested
number. -/
theorem C5_interpolation_fraction (segs : List Segment) (name : String)
    (n : ℤ) (s : Segment) (h : matchSegment segs name n = some s) :
    (sideMax s (interpolationSide n) = sideMin s (interpolationSide n) →
      interpolationFraction segs name n = some (1 / 2)) ∧
    (sideMax s (interpolationSide n) ≠ sideMin s (interpolationSide n) →
      interpolationFraction segs name n =
        some (((n : ℚ) - (sideMin s (interpolationSide n) : ℚ)) /
          ((sideMax s (interpolationSide n) : ℚ) - (sideMin s (interpolationSide n) : ℚ))) ∧
      (0 : ℚ) ≤ fraction n (sideMin s (interpolationSide n)) (sideMax s (interpolationSide n)) ∧
      fraction n (sideMin s (interpolationSide n)) (sideMax s (interpolationSide n)) ≤ 1) ∧
    (∀ n1 n2 : ℤ, sideMin s (interpolationSide n) ≤ n1 → n1 ≤ n2 →
      n2 ≤ sideMax s (interpolationSide n) →
      fraction n1 (sideMin s (interpolationSide n)) (sideMax s (interpolationSide n)) ≤
        fraction n2 (sideMin s (interpolationSide n)) (sideMax s (interpolationSide n))) ∧
    interpolationFraction [⟨"x", 2, 2, 1, 1⟩] "x" 2 = some (1 / 2) ∧
    interpolationFraction [⟨"x", 2, 10, 1, 1⟩] "x" 2 = some 0 ∧
    interpolationFraction [⟨"x", 2, 10, 1, 1⟩] "x" 6 = some (1 / 2) ∧
    interpolationFraction [⟨"x", 2, 10, 1, 1⟩] "x" 10 = some 1 := by
  have hpred := List.find?_some h
  simp only [Bool.and_eq_true, beq_iff_eq, decide_eq_true_eq] at hpred
  obtain ⟨⟨hname, hmn⟩, hmx⟩ := hpred
  have hm1 : matchSegment [(⟨"x", 2, 2, 1, 1⟩ : Segment)] "x" 2 =
      some ⟨"x", 2, 2, 1, 1⟩ := rfl
  have hm2 : matchSegment [(⟨"x", 2, 10, 1, 1⟩ : Segment)] "x" 2 =
      some ⟨"x", 2, 10, 1, 1⟩ := rfl
  have hm3 : matchSegment [(⟨"x", 2, 10, 1, 1⟩ : Segment)] "x" 6 =
      some ⟨"x", 2, 10, 1, 1⟩ := rfl
  have hm4 : matchSegment [(⟨"x", 2, 10, 1, 1⟩ : Segment)] "x" 10 =
      some ⟨"x", 2, 10, 1, 1⟩ := rfl
  refine ⟨fun heq => ?_, fun hne => ?_, fun n1 n2 h1 h12 h2 => ?_, ?_, ?_, ?_, ?_⟩
  · simp [interpolationFraction, h, fraction, heq]
  · have hlt : sideMin s (interpolationSide n) < sideMax s (interpolationSide n) :=
      lt_of_le_of_ne (le_trans hmn hmx) (fun hc => hne hc.symm)
    have hltq : ((sideMin s (interpolationSide n) : ℚ)) <
        ((sideMax s (interpolationSide n) : ℚ)) := by exact_mod_cast hlt
    have hdenpos : (0 : ℚ) < (sideMax s (interpolationSide n) : ℚ) -
        (sideMin s (interpolationSide n) : ℚ) := by linarith
    refine ⟨by simp [interpolationFraction, h, fraction, hne], ?_, ?_⟩
    · rw [fraction, if_neg hne]
      apply div_nonneg _ (le_of_lt hdenpos)
      have hc : ((sideMin s (interpolationSide n) : ℚ)) ≤ (n : ℚ) := by exact_mod_cast hmn
      linarith
    · rw [fraction, if_neg hne, div_le_one hdenpos]
      have hc : (n : ℚ) ≤ ((sideMax s (interpolationSide n) : ℚ)) := by exact_mod_cast hmx
      linarith
  · by_cases heq : sideMax s (interpolationSide n) = sideMin s (interpolationSide n)
    · simp [fraction, heq]
    · have hlt : sideMin s (interpolationSide n) < sideMax s (interpolationSide n) :=
        lt_of_le_of_ne (le_trans h1 (le_trans h12 h2)) (fun hc => heq hc.symm)
      have hltq : ((sideMin s (interpolationSide n) : ℚ)) <
          ((sideMax s (interpolationSide n) : ℚ)) := by exact_mod_cast hlt
      have hdenpos : (0 : ℚ) < (sideMax s (interpolationSide n) : ℚ) -
          (sideMin s (interpolationSide n) : ℚ) := by linarith
      rw [fraction, if_neg heq, fraction, if_neg heq]
      have h12q : (n1 : ℚ) ≤ (n2 : ℚ) := by exact_mod_cast h12
      gcongr
  · simp only [interpolationFraction, hm1, Option.map_some']
    norm_num [fraction, sideMin, sideMax, interpolationSide]
  · simp only [interpolationFraction, hm2, Option.map_some']
    norm_num [fraction, sideMin, sideMax, interpolationSide]
  · simp only [interpolationFraction, hm3, Option.map_some']
    norm_num [fraction, sideMin, sideMax, interpolationSide]
  · simp only [interpolationFraction, hm4, Option.map_some']
    norm_num [fraction, sideMin, sideMax, interpolationSide]

/-- C5 witness: the segment with vasen range [2, 10] matched at number 6
yields fraction one half, which lies between 0 and 1. -/
theorem C5_interpolation_fraction_witness :
    interpolationFraction [⟨"x", 2, 10, 1, 1⟩] "x" 6 = some (1 / 2) ∧
    (0 : ℚ) ≤ fraction 6 2 10 ∧ fraction 6 2 10 ≤ 1 := by
  have h := C5_interpolation_fraction [⟨"x", 2, 10, 1, 1⟩] "x" 6
    ⟨"x", 2, 10, 1, 1⟩ rfl
  have h2 := h.2.1 (by norm_num [sideMin, sideMax, interpolationSide])
  refine ⟨h.2.2.2.2.2.1, ?_, ?_⟩
  · have hb := h2.2.1
    simpa [sideMin, sideMax, interpolationSide] using hb
  · have hb := h2.2.2
    simpa [sideMin, sideMax, interpolationSide] using hb

/-- A strict interior test for an axis-aligned box, used to instantiate the
abstract polygon containment of the locator on concrete inputs. -/
def boxStrictInside (b : Box) (p : Point) : Bool :=
  decide (b.minx < p.1 ∧ p.1 < b.maxx ∧ b.miny < p.2 ∧ p.2 < b.maxy)

/-- C6: against any polygon containment test whose successes lie inside the
indexed bounding boxes, the locator returns none for a point contained in no
municipality polygon, and returns the name of M for a point contained in M
and in no other listed polygon. -/
theorem C6_municipality_lookup {Poly : Type} (contains : Poly → Point → Bool)
    (bounds : Poly → Box) (ms : List (String × Poly)) (p : Point)
    (hsound : ∀ m ∈ ms, contains m.2 p = true → boxContainsPoint (bounds m.2) p = true) :
    ((∀ m ∈ ms, contains m.2 p = false) →
      lookupMunicipality contains bounds ms p = none) ∧
    (∀ M ∈ ms, contains M.2 p = true →
      (∀ m ∈ ms, contains m.2 p = true → m = M) →
      lookupMunicipality contains bounds ms p = some M.1) := by
  constructor
  · intro hall
    unfold lookupMunicipality
    rw [List.find?_eq_none.mpr]
    · rfl
    · intro m hm
      have hm2 : m ∈ ms := List.mem_of_mem_filter hm
      simp [hall m hm2]
  · intro M hM hMc huniq
    unfold lookupMunicipality
    have hMfilter : M ∈ ms.filter (fun m => boxContainsPoint (bounds m.2) p) :=
      List.mem_filter.mpr ⟨hM, hsound M hM hMc⟩
    have hsomefind :
        ((ms.filter (fun m => boxContainsPoint (bounds m.2) p)).find?
          (fun m => contains m.2 p)).isSome := by
      rw [List.find?_isSome]
      exact ⟨M, hMfilter, hMc⟩
    cases hfind : (ms.filter (fun m => boxContainsPoint (bounds m.2) p)).find?
        (fun m => contains m.2 p) with
    | none => rw [hfind] at hsomefind; simp at hsomefind
    | some m0 =>
      have h2 : m0 ∈ ms := List.mem_of_mem_filter (List.mem_of_find?_eq_some hfind)
      have h1c : contains m0.2 p = true := by
        have hb := List.find?_some hfind
        simpa using hb
      have h3 : m0 = M := huniq m0 h2 h1c
      simp [hfind, h3]

/-- C6 witness: two box-shaped municipalities; the point (5, 5) lies
strictly inside the first box only and resolves to its name, and the point
(15, 5) lies in neither box and resolves to none. -/
theorem C6_municipality_lookup_witness :
    lookupMunicipality boxStrictInside (fun b => b)
      [("Helsinki", ⟨0, 0, 10, 10⟩), ("Espoo", ⟨20, 0, 30, 10⟩)]
      ((5 : ℚ), (5 : ℚ)) = some "Helsinki" ∧
    lookupMunicipality boxStrictInside (fun b => b)
      [("Helsinki", ⟨0, 0, 10, 10⟩), ("Espoo", ⟨20, 0, 30, 10⟩)]
      ((15 : ℚ), (5 : ℚ)) = none := by
  have h1 := C6_municipality_lookup boxStrictInside (fun b => b)
    [("Helsinki", ⟨0, 0, 10, 10⟩), ("Espoo", ⟨20, 0, 30, 10⟩)]
    ((5 : ℚ), (5 : ℚ)) (by decide)
  have h2 := C6_municipality_lookup boxStrictInside (fun b => b)
    [("Helsinki", ⟨0, 0, 10, 10⟩), ("Espoo", ⟨20, 0, 30, 10⟩)]
    ((15 : ℚ), (5 : ℚ)) (by decide)
  constructor
  · exact h1.2 ("Helsinki", ⟨0, 0, 10, 10⟩) (by decide) (by decide) (by decide)
  · exact h2.1 (by decide)

/-- One candidate submission to add_address, as produced by the way loop of
main: street, housenumber, location, optional unit, main flag. -/
structure Candidate where
  street : String
  number : String
  location : Point
  unit : Option String
  main : Bool
deriving DecidableEq

/-- The street resolution for a way with address data: the addr:street tag
if present, else the name of the associated street relation when the assoc
slot is truthy (nonzero), else none (the way is skipped with a log entry). -/
def wayStreet (relName : Nat → String) (w : OsmWay) : Option String :=
  match tagLookup w.tags "addr:street" with
  | some s => some s
  | none =>
    match w.assoc with
    | some rid => if rid ≠ 0 then some (relName rid) else none
    | none => none

/-- The entrance scan of the way loop: for each member node id found in the
node cache, compute get_unit; skip the node when the unit is falsy (None or
the empty string), otherwise produce one candidate at the node location. -/
def entranceCandidates (nodes : Nat → Option OsmNode) (street : String)
    (number : String) (nds : List Nat) : List Candidate :=
  nds.filterMap (fun i =>
    match nodes i with
    | none => none
    | some nd =>
      if ((get_unit nd.tags).1.getD "") = "" then none
      else some ⟨street, number, nd.lonlat, (get_unit nd.tags).1, (get_unit nd.tags).2⟩)

/-- The unguarded coordinate resolution of the centroid fallback,
map(lambda x: coords[x], w[1]): any member id absent from the coordinate
cache raises a KeyError, modelled as none. -/
def lookupAll (coords : Nat → Option Point) : List Nat → Option (List Point)
  | [] => some []
  | i :: rest =>
    match coords i, lookupAll coords rest with
    | some p, some ps => some (p :: ps)
    | _, _ => none

/-- The consecutive vertex pairs of the implicitly closed ring of a polygon. -/
def ringPairs (ps : List Point) : List (Point × Point) :=
  match ps with
  | [] => []
  | p :: _ => ps.zip (ps.tail ++ [p])

/-- The planar cross product of two vertices, the summand of the shoelace
formula. -/
def cross2 (p q : Point) : ℚ :=
  p.1 * q.2 - q.1 * p.2

/-- The area centroid of the polygon on the given vertex ring, as computed
by shapely polygon.centroid: none on degenerate geometry. -/
def centroid (ps : List Point) : Option Point :=
  if ((ringPairs ps).map (fun pq => cross2 pq.1 pq.2)).sum = 0 then none
  else
    some
      ((((ringPairs ps).map (fun pq => (pq.1.1 + pq.2.1) * cross2 pq.1 pq.2)).sum /
          (3 * ((ringPairs ps).map (fun pq => cross2 pq.1 pq.2)).sum)),
        (((ringPairs ps).map (fun pq => (pq.1.2 + pq.2.2) * cross2 pq.1 pq.2)).sum /
          (3 * ((ringPairs ps).map (fun pq => cross2 pq.1 pq.2)).sum)))

/-- One iteration of the way loop of main: with a housenumber tag, resolve
the street (skip if unresolvable), scan for entrance candidates, and fall
back to the centroid of the member coordinates when none are found,
guarding only on the member count; without a housenumber but with a street
tag, attach the street to every cached member node carrying a housenumber
tag; none models the uncaught coordinate KeyError of the fallback. -/
def wayCandidates (relName : Nat → String) (nodes : Nat → Option OsmNode)
    (coords : Nat → Option Point) (w : OsmWay) : Option (List Candidate) :=
  match tagLookup w.tags "addr:housenumber" with
  | some number =>
    match wayStreet relName w with
    | none => some []
    | some street =>
      match entranceCandidates nodes street number w.nds with
      | e :: es => some (e :: es)
      | [] =>
        if w.nds.length < 3 then some []
        else
          match lookupAll coords w.nds with
          | none => none
          | some ps =>
            match centroid ps with
            | none => none
            | some c => some [⟨street, number, c, none, false⟩]
  | none =>
    match tagLookup w.tags "addr:street" with
    | some street =>
      some (w.nds.filterMap (fun i =>
        match nodes i with
        | none => none
        | some nd =>
          match tagLookup nd.tags "addr:housenumber" with
          | some hnum => some ⟨street, hnum, nd.lonlat, none, false⟩
          | none => none))
    | none => some []

theorem entranceCandidates_eq_nil (nodes : Nat → Option OsmNode)
    (street number : String) (nds : List Nat)
    (h : ∀ i ∈ nds, ∀ nd, nodes i = some nd → ((get_unit nd.tags).1.getD "") = "") :
    entranceCandidates nodes street number nds = [] := by
  induction nds with
  | nil => rfl
  | cons i rest ih =>
    have hrest : entranceCandidates nodes street number rest = [] :=
      ih (fun j hj => h j (List.mem_cons_of_mem _ hj))
    simp only [entranceCandidates, List.filterMap_cons] at hrest ⊢
    cases hnd : nodes i with
    | none => simpa using hrest
    | some nd =>
      have hu := h i (List.mem_cons_self i rest) nd hnd
      simp only [hu, if_pos rfl]
      simpa using hrest

/-- C7: a way with a housenumber tag and a resolvable street whose four
member nodes have cached coordinates (0,0), (0,2), (2,2), (2,0), none of
whose cached member nodes yields a unit, produces exactly one candidate,
located at the polygon centroid (1, 1), with no unit and no main flag. -/
theorem C7_way_centroid (relName : Nat → String) (nodes : Nat → Option OsmNode)
    (coords : Nat → Option Point) (w : OsmWay) (number street : String)
    (i1 i2 i3 i4 : Nat)
    (hn : tagLookup w.tags "addr:housenumber" = some number)
    (hs : wayStreet relName w = some street)
    (hnds : w.nds = [i1, i2, i3, i4])
    (hc1 : coords i1 = some ((0 : ℚ), (0 : ℚ)))
    (hc2 : coords i2 = some ((0 : ℚ), (2 : ℚ)))
    (hc3 : coords i3 = some ((2 : ℚ), (2 : ℚ)))
    (hc4 : coords i4 = some ((2 : ℚ), (0 : ℚ)))
    (hno : ∀ i ∈ w.nds, ∀ nd, nodes i = some nd →
      ((get_unit nd.tags).1.getD "") = "") :
    wayCandidates relName nodes coords w =
      some [⟨street, number, ((1 : ℚ), (1 : ℚ)), none, false⟩] := by
  have hent : entranceCandidates nodes street number w.nds = [] :=
    entranceCandidates_eq_nil nodes street number w.nds hno
  have hl : lookupAll coords w.nds =
      some [((0 : ℚ), (0 : ℚ)), ((0 : ℚ), (2 : ℚ)), ((2 : ℚ), (2 : ℚ)),
        ((2 : ℚ), (0 : ℚ))] := by
    rw [hnds]
    simp [lookupAll, hc1, hc2, hc3, hc4]
  have hcent : centroid [((0 : ℚ), (0 : ℚ)), ((0 : ℚ), (2 : ℚ)),
      ((2 : ℚ), (2 : ℚ)), ((2 : ℚ), (0 : ℚ))] = some ((1 : ℚ), (1 : ℚ)) := by
    norm_num [centroid, ringPairs, cross2]
  have hlen : ¬ w.nds.length < 3 := by rw [hnds]; simp
  simp only [wayCandidates, hn, hs, hent, if_neg hlen, hl, hcent]

/-- C7 witness: the concrete square way of the spec, with a street tag S,
housenumber 7, member ids 1 to 4 and no cached member nodes. -/
theorem C7_way_centroid_witness :
    wayCandidates (fun _ => "") (fun _ => none)
      (fun i => if i = 1 then some ((0 : ℚ), (0 : ℚ))
        else if i = 2 then some ((0 : ℚ), (2 : ℚ))
        else if i = 3 then some ((2 : ℚ), (2 : ℚ))
        else if i = 4 then some ((2 : ℚ), (0 : ℚ))
        else none)
      ⟨[("addr:street", "S"), ("addr:housenumber", "7")], [1, 2, 3, 4], none⟩ =
      some [⟨"S", "7", ((1 : ℚ), (1 : ℚ)), none, false⟩] :=
  C7_way_centroid (fun _ => "") (fun _ => none)
    (fun i => if i = 1 then some ((0 : ℚ), (0 : ℚ))
      else if i = 2 then some ((0 : ℚ), (2 : ℚ))
      else if i = 3 then some ((2 : ℚ), (2 : ℚ))
      else if i = 4 then some ((2 : ℚ), (0 : ℚ))
      else none)
    ⟨[("addr:street", "S"), ("addr:housenumber", "7")], [1, 2, 3, 4], none⟩
    "7" "S" 1 2 3 4 rfl rfl rfl rfl rfl rfl rfl
    (fun i hi nd hnd => by simp at hnd)

/-- C8 counterexample: a way tagged only with street Testroad whose single
cached member node carries addr:housenumber 5 AND its own addr:street tag
Other. The claim predicts no record for this node (it has a street tag),
but the code attaches the way street to every cached member node carrying a
housenumber, yielding the record (Testroad, 5) at the node location. -/
theorem C8_counterexample :
    tagLookup [("addr:housenumber", "5"), ("addr:street", "Other")]
      "addr:street" = some "Other" ∧
    wayCandidates (fun _ => "")
      (fun i => if i = 1 then
          some ⟨[("addr:housenumber", "5"), ("addr:street", "Other")],
            ((3 : ℚ), (4 : ℚ)), none⟩
        else none)
      (fun _ => none)
      ⟨[("addr:street", "Testroad")], [1], none⟩ =
      some [⟨"Testroad", "5", ((3 : ℚ), (4 : ℚ)), none, false⟩] :=
  ⟨rfl, rfl⟩

/-- C8 amended: for a way with a street tag and no housenumber tag, the
produced candidate list contains exactly one record per cached member node
carrying a housenumber tag, regardless of whether the node has its own
street tag, with the way street, the node housenumber and the node
location, no unit and no main flag. -/
theorem C8_way_street_attach (relName : Nat → String)
    (nodes : Nat → Option OsmNode) (coords : Nat → Option Point) (w : OsmWay)
    (street : String)
    (h1 : tagLookup w.tags "addr:housenumber" = none)
    (h2 : tagLookup w.tags "addr:street" = some street) :
    ∃ cs, wayCandidates relName nodes coords w = some cs ∧
      ∀ c : Candidate, c ∈ cs ↔
        ∃ i ∈ w.nds, ∃ nd, nodes i = some nd ∧
          ∃ hnum, tagLookup nd.tags "addr:housenumber" = some hnum ∧
            c = ⟨street, hnum, nd.lonlat, none, false⟩ := by
  refine ⟨w.nds.filterMap (fun i =>
      match nodes i with
      | none => none
      | some nd =>
        match tagLookup nd.tags "addr:housenumber" with
        | some hnum => some ⟨street, hnum, nd.lonlat, none, false⟩
        | none => none), ?_, ?_⟩
  · simp only [wayCandidates, h1, h2]
  · intro c
    rw [List.mem_filterMap]
    constructor
    · rintro ⟨i, hi, hf⟩
      split at hf
      · exact absurd hf (by simp)
      · rename_i nd hnd
        split at hf
        · rename_i hnum hh
          simp only [Option.some.injEq] at hf
          exact ⟨i, hi, nd, hnd, hnum, hh, hf.symm⟩
        · exact absurd hf (by simp)
    · rintro ⟨i, hi, nd, hnd, hnum, hh, hceq⟩
      subst hceq
      exact ⟨i, hi, by simp only [hnd, hh]⟩

/-- C8 witness: the end-to-end instance of the spec, a Testroad way with a
member node carrying housenumber 5 and no street tag: the record
(Testroad, 5) at the node location is among the produced candidates. -/
theorem C8_way_street_attach_witness :
    ∃ cs, wayCandidates (fun _ => "")
        (fun i => if i = 1 then
            some ⟨[("addr:housenumber", "5")], ((3 : ℚ), (4 : ℚ)), none⟩
          else none)
        (fun _ => none) ⟨[("addr:street", "Testroad")], [1], none⟩ = some cs ∧
      (⟨"Testroad", "5", ((3 : ℚ), (4 : ℚ)), none, false⟩ : Candidate) ∈ cs := by
  obtain ⟨cs, hcs, hiff⟩ := C8_way_street_attach (fun _ => "")
    (fun i => if i = 1 then
        some ⟨[("addr:housenumber", "5")], ((3 : ℚ), (4 : ℚ)), none⟩
      else none)
    (fun _ => none) ⟨[("addr:street", "Testroad")], [1], none⟩ "Testroad" rfl rfl
  refine ⟨cs, hcs, (hiff _).mpr ?_⟩
  exact ⟨1, by simp,
    ⟨[("addr:housenumber", "5")], ((3 : ℚ), (4 : ℚ)), none⟩, rfl, "5", rfl, rfl⟩

theorem lookupAll_eq_none_iff (coords : Nat → Option Point) (l : List Nat) :
    lookupAll coords l = none ↔ ∃ i ∈ l, coords i = none := by
  induction l with
  | nil => simp [lookupAll]
  | cons i rest ih =>
    cases hc : coords i with
    | none =>
      simp only [lookupAll, hc]
      exact ⟨fun _ => ⟨i, List.mem_cons_self i rest, hc⟩, fun _ => trivial⟩
    | some p =>
      cases hr : lookupAll coords rest with
      | none =>
        simp only [lookupAll, hc, hr]
        refine ⟨fun _ => ?_, fun _ => trivial⟩
        obtain ⟨j, hj, hcj⟩ := ih.mp hr
        exact ⟨j, List.mem_cons_of_mem _ hj, hcj⟩
      | some ps =>
        simp only [lookupAll, hc, hr]
        constructor
        · intro hcontra
          exact absurd hcontra (by simp)
        · rintro ⟨j, hj, hcj⟩
          rcases List.mem_cons.mp hj with hji | hjr
          · subst hji
            rw [hc] at hcj
            exact absurd hcj (by simp)
          · exact absurd (ih.mpr ⟨j, hjr, hcj⟩) (by simp [hr])

/-- C10: on the centroid fallback path (housenumber present, street
resolved, no entrance candidates, at least 3 member ids), a member id
absent from the coordinate cache makes the way processing fail (the
unguarded coords lookup raises), rather than skipping with a warning; and
the fallback succeeds only when every member id is present in the
coordinate cache. -/
theorem C10_centroid_fallback_needs_coords (relName : Nat → String)
    (nodes : Nat → Option OsmNode) (coords : Nat → Option Point) (w : OsmWay)
    (number street : String)
    (hn : tagLookup w.tags "addr:housenumber" = some number)
    (hs : wayStreet relName w = some street)
    (hent : entranceCandidates nodes street number w.nds = [])
    (hlen : ¬ w.nds.length < 3) :
    ((∃ i ∈ w.nds, coords i = none) → wayCandidates relName nodes coords w = none) ∧
    (∀ cs, wayCandidates relName nodes coords w = some cs →
      ∀ i ∈ w.nds, (coords i).isSome = true) := by
  have hred : wayCandidates relName nodes coords w =
      (match lookupAll coords w.nds with
       | none => none
       | some ps =>
         match centroid ps with
         | none => none
         | some c => some [⟨street, number, c, none, false⟩]) := by
    simp only [wayCandidates, hn, hs, hent, if_neg hlen]
  constructor
  · intro hmiss
    rw [hred, (lookupAll_eq_none_iff coords w.nds).mpr hmiss]
  · intro cs hcs i hi
    cases hc : coords i with
    | some p => rfl
    | none =>
      have hnone : lookupAll coords w.nds = none :=
        (lookupAll_eq_none_iff coords w.nds).mpr ⟨i, hi, hc⟩
      rw [hred, hnone] at hcs
      exact absurd hcs (by simp)

/-- C10 witness: a way passing the length guard with member ids 1, 2, 3
where id 3 has no cached coordinate: the processing fails with none. -/
theorem C10_centroid_fallback_needs_coords_witness :
    wayCandidates (fun _ => "") (fun _ => none)
      (fun i => if i = 1 then some ((0 : ℚ), (0 : ℚ))
        else if i = 2 then some ((0 : ℚ), (2 : ℚ)) else none)
      ⟨[("addr:street", "S"), ("addr:housenumber", "7")], [1, 2, 3], none⟩ =
      none := by
  have h := C10_centroid_fallback_needs_coords (fun _ => "") (fun _ => none)
    (fun i => if i = 1 then some ((0 : ℚ), (0 : ℚ))
      else if i = 2 then some ((0 : ℚ), (2 : ℚ)) else none)
    ⟨[("addr:street", "S"), ("addr:housenumber", "7")], [1, 2, 3], none⟩
    "7" "S" rfl rfl rfl (by simp)
  exact h.1 ⟨3, by simp, rfl⟩

/-- A relation member as stored by relations_callback: (id, type, role). -/
abbrev Member := Nat × String × String

/-- A cached street relation: tags (carrying the name) and the ordered
member list. -/
structure OsmRelation where
  tags : Tags
  members : List Member
deriving DecidableEq

/-- The node and way caches mutated by the linking pass of main. -/
structure Caches where
  nodes : Nat → Option OsmNode
  ways : Nat → Option OsmWay

/-- One member step of the linking pass: for a way (node) member present in
the way (node) cache, set its assoc slot to the relation id unless it is
already set, in which case log a warning and leave it; anything else is
ignored. -/
def linkMember (c : Caches) (rid : Nat) (m : Member) : Caches :=
  if m.2.1 = "way" then
    match c.ways m.1 with
    | none => c
    | some w =>
      match w.assoc with
      | some _ => c
      | none =>
        { c with ways := fun j =>
            if j = m.1 then some { w with assoc := some rid } else c.ways j }
  else if m.2.1 = "node" then
    match c.nodes m.1 with
    | none => c
    | some n =>
      match n.assoc with
      | some _ => c
      | none =>
        { c with nodes := fun j =>
            if j = m.1 then some { n with assoc := some rid } else c.nodes j }
  else c

/-- The linking pass over one relation: walk its member list in order. -/
def linkRelation (c : Caches) (rid : Nat) (r : OsmRelation) : Caches :=
  r.members.foldl (fun acc m => linkMember acc rid m) c

/-- The full linking pass over the relations cache in iteration order. -/
def linkRelations (c : Caches) (rels : List (Nat × OsmRelation)) : Caches :=
  rels.foldl (fun acc rr => linkRelation acc rr.1 rr.2) c

/-- Whether a relation references the way with the given id. -/
def refersToWay (r : OsmRelation) (i : Nat) : Bool :=
  r.members.any (fun m => m.2.1 == "way" && m.1 == i)

/-- Whether a relation references the node with the given id. -/
def refersToNode (r : OsmRelation) (i : Nat) : Bool :=
  r.members.any (fun m => m.2.1 == "node" && m.1 == i)

/-- The id of the first relation in iteration order referencing the way. -/
def firstWayRef (rels : List (Nat × OsmRelation)) (i : Nat) : Option Nat :=
  (rels.find? (fun rr => refersToWay rr.2 i)).map (fun rr => rr.1)

/-- The id of the first relation in iteration order referencing the node. -/
def firstNodeRef (rels : List (Nat × OsmRelation)) (i : Nat) : Option Nat :=
  (rels.find? (fun rr => refersToNode rr.2 i)).map (fun rr => rr.1)

theorem osmway_eta (w : OsmWay) (h : w.assoc = none) :
    ({ w with assoc := none } : OsmWay) = w := by
  cases w
  simp_all

theorem osmnode_eta (n : OsmNode) (h : n.assoc = none) :
    ({ n with assoc := none } : OsmNode) = n := by
  cases n
  simp_all

theorem linkMember_ways_stable (c : Caches) (rid : Nat) (m : Member) (i : Nat)
    (w : OsmWay) (a : Nat) (hc : c.ways i = some w) (ha : w.assoc = some a) :
    (linkMember c rid m).ways i = some w := by
  by_cases hty : m.2.1 = "way"
  · cases hw : c.ways m.1 with
    | none => simp only [linkMember, if_pos hty, hw]; exact hc
    | some w2 =>
      cases hw2 : w2.assoc with
      | some b => simp only [linkMember, if_pos hty, hw, hw2]; exact hc
      | none =>
        simp only [linkMember, if_pos hty, hw, hw2]
        by_cases hi : i = m.1
        · rw [hi] at hc
          rw [hc] at hw
          injection hw with hww
          rw [hww, hw2] at ha
          exact absurd ha (by simp)
        · rw [if_neg hi]
          exact hc
  · by_cases hty2 : m.2.1 = "node"
    · cases hn : c.nodes m.1 with
      | none => simp only [linkMember, if_neg hty, if_pos hty2, hn]; exact hc
      | some n2 =>
        cases hn2 : n2.assoc with
        | some b => simp only [linkMember, if_neg hty, if_pos hty2, hn, hn2]; exact hc
        | none => simp only [linkMember, if_neg hty, if_pos hty2, hn, hn2]; exact hc
    · simp only [linkMember, if_neg hty, if_neg hty2]
      exact hc

theorem linkMember_ways_not_ref (c : Caches) (rid : Nat) (m : Member) (i : Nat)
    (hm : ¬ (m.2.1 = "way" ∧ m.1 = i)) :
    (linkMember c rid m).ways i = c.ways i := by
  by_cases hty : m.2.1 = "way"
  · cases hw : c.ways m.1 with
    | none => simp only [linkMember, if_pos hty, hw]
    | some w2 =>
      cases hw2 : w2.assoc with
      | some b => simp only [linkMember, if_pos hty, hw, hw2]
      | none =>
        simp only [linkMember, if_pos hty, hw, hw2]
        rw [if_neg (fun hi => hm ⟨hty, hi.symm⟩)]
  · by_cases hty2 : m.2.1 = "node"
    · cases hn : c.nodes m.1 with
      | none => simp only [linkMember, if_neg hty, if_pos hty2, hn]
      | some n2 =>
        cases hn2 : n2.assoc with
        | some b => simp only [linkMember, if_neg hty, if_pos hty2, hn, hn2]
        | none => simp only [linkMember, if_neg hty, if_pos hty2, hn, hn2]
    · simp only [linkMember, if_neg hty, if_neg hty2]

theorem linkMember_ways_set (c : Caches) (rid : Nat) (m : Member) (i : Nat)
    (w : OsmWay) (hty : m.2.1 = "way") (hid : m.1 = i)
    (hc : c.ways i = some w) (ha : w.assoc = none) :
    (linkMember c rid m).ways i = some { w with assoc := some rid } := by
  have hcm : c.ways m.1 = some w := by rw [hid]; exact hc
  simp only [linkMember, if_pos hty, hcm, ha]
  rw [if_pos hid.symm]

theorem linkMember_nodes_stable (c : Caches) (rid : Nat) (m : Member) (i : Nat)
    (n : OsmNode) (a : Nat) (hc : c.nodes i = some n) (ha : n.assoc = some a) :
    (linkMember c rid m).nodes i = some n := by
  by_cases hty : m.2.1 = "way"
  · cases hw : c.ways m.1 with
    | none => simp only [linkMember, if_pos hty, hw]; exact hc
    | some w2 =>
      cases hw2 : w2.assoc with
      | some b => simp only [linkMember, if_pos hty, hw, hw2]; exact hc
      | none => simp only [linkMember, if_pos hty, hw, hw2]; exact hc
  · by_cases hty2 : m.2.1 = "node"
    · cases hn : c.nodes m.1 with
      | none => simp only [linkMember, if_neg hty, if_pos hty2, hn]; exact hc
      | some n2 =>
        cases hn2 : n2.assoc with
        | some b => simp only [linkMember, if_neg hty, if_pos hty2, hn, hn2]; exact hc
        | none =>
          simp only [linkMember, if_neg hty, if_pos hty2, hn, hn2]
          by_cases hi : i = m.1
          · rw [hi] at hc
            rw [hc] at hn
            injection hn with hnn
            rw [hnn, hn2] at ha
            exact absurd ha (by simp)
          · rw [if_neg hi]
            exact hc
    · simp only [linkMember, if_neg hty, if_neg hty2]
      exact hc

theorem linkMember_nodes_not_ref (c : Caches) (rid : Nat) (m : Member) (i : Nat)
    (hm : ¬ (m.2.1 = "node" ∧ m.1 = i)) :
    (linkMember c rid m).nodes i = c.nodes i := by
  by_cases hty : m.2.1 = "way"
  · cases hw : c.ways m.1 with
    | none => simp only [linkMember, if_pos hty, hw]
    | some w2 =>
      cases hw2 : w2.assoc with
      | some b => simp only [linkMember, if_pos hty, hw, hw2]
      | none => simp only [linkMember, if_pos hty, hw, hw2]
  · by_cases hty2 : m.2.1 = "node"
    · cases hn : c.nodes m.1 with
      | none => simp only [linkMember, if_neg hty, if_pos hty2, hn]
      | some n2 =>
        cases hn2 : n2.assoc with
        | some b => simp only [linkMember, if_neg hty, if_pos hty2, hn, hn2]
        | none =>
          simp only [linkMember, if_neg hty, if_pos hty2, hn, hn2]
          rw [if_neg (fun hi => hm ⟨hty2, hi.symm⟩)]
    · simp only [linkMember, if_neg hty, if_neg hty2]

theorem linkMember_nodes_set (c : Caches) (rid : Nat) (m : Member) (i : Nat)
    (n : OsmNode) (hty : m.2.1 = "node") (hid : m.1 = i)
    (hc : c.nodes i = some n) (ha : n.assoc = none) :
    (linkMember c rid m).nodes i = some { n with assoc := some rid } := by
  have htyw : ¬ m.2.1 = "way" := by rw [hty]; simp
  have hcm : c.nodes m.1 = some n := by rw [hid]; exact hc
  simp only [linkMember, if_neg htyw, if_pos hty, hcm, ha]
  rw [if_pos hid.symm]

theorem foldMembers_ways_some (ms : List Member) (c : Caches) (rid i : Nat)
    (w : OsmWay) (a : Nat) (hc : c.ways i = some w) (ha : w.assoc = some a) :
    (ms.foldl (fun acc m => linkMember acc rid m) c).ways i = some w := by
  induction ms generalizing c with
  | nil => simpa using hc
  | cons m ms ih =>
    simp only [List.foldl_cons]
    exact ih _ (linkMember_ways_stable c rid m i w a hc ha)

theorem foldMembers_nodes_some (ms : List Member) (c : Caches) (rid i : Nat)
    (n : OsmNode) (a : Nat) (hc : c.nodes i = some n) (ha : n.assoc = some a) :
    (ms.foldl (fun acc m => linkMember acc rid m) c).nodes i = some n := by
  induction ms generalizing c with
  | nil => simpa using hc
  | cons m ms ih =>
    simp only [List.foldl_cons]
    exact ih _ (linkMember_nodes_stable c rid m i n a hc ha)

theorem foldMembers_ways_none (ms : List Member) (c : Caches) (rid i : Nat)
    (w : OsmWay) (hc : c.ways i = some w) (ha : w.assoc = none) :
    (ms.foldl (fun acc m => linkMember acc rid m) c).ways i =
      if ms.any (fun m => m.2.1 == "way" && m.1 == i) then
        some { w with assoc := some rid }
      else some w := by
  induction ms generalizing c with
  | nil => simpa using hc
  | cons m ms ih =>
    simp only [List.foldl_cons, List.any_cons]
    by_cases hm : m.2.1 = "way" ∧ m.1 = i
    · have hset := linkMember_ways_set c rid m i w hm.1 hm.2 hc ha
      rw [foldMembers_ways_some ms _ rid i _ rid hset rfl]
      have hb : (m.2.1 == "way" && m.1 == i) = true := by
        simp only [Bool.and_eq_true, beq_iff_eq]
        exact hm
      simp [hb]
    · have hpres := linkMember_ways_not_ref c rid m i hm
      rw [ih _ (by rw [hpres]; exact hc)]
      have hb : (m.2.1 == "way" && m.1 == i) = false := by
        rw [Bool.eq_false_iff]
        intro hbt
        simp only [Bool.and_eq_true, beq_iff_eq] at hbt
        exact hm hbt
      simp only [hb, Bool.false_or]

theorem foldMembers_nodes_none (ms : List Member) (c : Caches) (rid i : Nat)
    (n : OsmNode) (hc : c.nodes i = some n) (ha : n.assoc = none) :
    (ms.foldl (fun acc m => linkMember acc rid m) c).nodes i =
      if ms.any (fun m => m.2.1 == "node" && m.1 == i) then
        some { n with assoc := some rid }
      else some n := by
  induction ms generalizing c with
  | nil => simpa using hc
  | cons m ms ih =>
    simp only [List.foldl_cons, List.any_cons]
    by_cases hm : m.2.1 = "node" ∧ m.1 = i
    · have hset := linkMember_nodes_set c rid m i n hm.1 hm.2 hc ha
      rw [foldMembers_nodes_some ms _ rid i _ rid hset rfl]
      have hb : (m.2.1 == "node" && m.1 == i) = true := by
        simp only [Bool.and_eq_true, beq_iff_eq]
        exact hm
      simp [hb]
    · have hpres := linkMember_nodes_not_ref c rid m i hm
      rw [ih _ (by rw [hpres]; exact hc)]
      have hb : (m.2.1 == "node" && m.1 == i) = false := by
        rw [Bool.eq_false_iff]
        intro hbt
        simp only [Bool.and_eq_true, beq_iff_eq] at hbt
        exact hm hbt
      simp only [hb, Bool.false_or]

theorem linkRelation_ways_some (c : Caches) (rid : Nat) (r : OsmRelation)
    (i : Nat) (w : OsmWay) (a : Nat) (hc : c.ways i = some w)
    (ha : w.assoc = some a) : (linkRelation c rid r).ways i = some w :=
  foldMembers_ways_some r.members c rid i w a hc ha

theorem linkRelation_nodes_some (c : Caches) (rid : Nat) (r : OsmRelation)
    (i : Nat) (n : OsmNode) (a : Nat) (hc : c.nodes i = some n)
    (ha : n.assoc = some a) : (linkRelation c rid r).nodes i = some n :=
  foldMembers_nodes_some r.members c rid i n a hc ha

theorem linkRelation_ways_none (c : Caches) (rid : Nat) (r : OsmRelation)
    (i : Nat) (w : OsmWay) (hc : c.ways i = some w) (ha : w.assoc = none) :
    (linkRelation c rid r).ways i =
      if refersToWay r i then some { w with assoc := some rid } else some w :=
  foldMembers_ways_none r.members c rid i w hc ha

theorem linkRelation_nodes_none (c : Caches) (rid : Nat) (r : OsmRelation)
    (i : Nat) (n : OsmNode) (hc : c.nodes i = some n) (ha : n.assoc = none) :
    (linkRelation c rid r).nodes i =
      if refersToNode r i then some { n with assoc := some rid } else some n :=
  foldMembers_nodes_none r.members c rid i n hc ha

theorem linkRelations_ways_some (rels : List (Nat × OsmRelation)) (c : Caches)
    (i : Nat) (w : OsmWay) (a : Nat) (hc : c.ways i = some w)
    (ha : w.assoc = some a) : (linkRelations c rels).ways i = some w := by
  induction rels generalizing c with
  | nil => simpa [linkRelations] using hc
  | cons rr rels ih =>
    show (linkRelations (linkRelation c rr.1 rr.2) rels).ways i = some w
    exact ih _ (linkRelation_ways_some c rr.1 rr.2 i w a hc ha)

theorem linkRelations_nodes_some (rels : List (Nat × OsmRelation)) (c : Caches)
    (i : Nat) (n : OsmNode) (a : Nat) (hc : c.nodes i = some n)
    (ha : n.assoc = some a) : (linkRelations c rels).nodes i = some n := by
  induction rels generalizing c with
  | nil => simpa [linkRelations] using hc
  | cons rr rels ih =>
    show (linkRelations (linkRelation c rr.1 rr.2) rels).nodes i = some n
    exact ih _ (linkRelation_nodes_some c rr.1 rr.2 i n a hc ha)

theorem linkRelations_ways_none (rels : List (Nat × OsmRelation)) (c : Caches)
    (i : Nat) (w : OsmWay) (hc : c.ways i = some w) (ha : w.assoc = none) :
    (linkRelations c rels).ways i = some { w with assoc := firstWayRef rels i } := by
  induction rels generalizing c with
  | nil =>
    have hf : firstWayRef [] i = none := rfl
    rw [hf, osmway_eta w ha]
    simpa [linkRelations] using hc
  | cons rr rels ih =>
    show (linkRelations (linkRelation c rr.1 rr.2) rels).ways i =
      some { w with assoc := firstWayRef (rr :: rels) i }
    by_cases href : refersToWay rr.2 i = true
    · have h1 : (linkRelation c rr.1 rr.2).ways i =
          some { w with assoc := some rr.1 } := by
        rw [linkRelation_ways_none c rr.1 rr.2 i w hc ha, if_pos href]
      have hf : firstWayRef (rr :: rels) i = some rr.1 := by
        unfold firstWayRef
        exact congrArg (Option.map (fun rr => rr.1))
          (@List.find?_cons_of_pos _ (fun rr => refersToWay rr.2 i) rr rels href)
      rw [hf]
      exact linkRelations_ways_some rels _ i _ rr.1 h1 rfl
    · have h1 : (linkRelation c rr.1 rr.2).ways i = some w := by
        rw [linkRelation_ways_none c rr.1 rr.2 i w hc ha,
          if_neg (fun hcon => href hcon)]
      have hf : firstWayRef (rr :: rels) i = firstWayRef rels i := by
        unfold firstWayRef
        exact congrArg (Option.map (fun rr => rr.1))
          (@List.find?_cons_of_neg _ (fun rr => refersToWay rr.2 i) rr rels
            (fun hcon => href hcon))
      rw [hf]
      exact ih _ h1

theorem linkRelations_nodes_none (rels : List (Nat × OsmRelation)) (c : Caches)
    (i : Nat) (n : OsmNode) (hc : c.nodes i = some n) (ha : n.assoc = none) :
    (linkRelations c rels).nodes i =
      some { n with assoc := firstNodeRef rels i } := by
  induction rels generalizing c with
  | nil =>
    have hf : firstNodeRef [] i = none := rfl
    rw [hf, osmnode_eta n ha]
    simpa [linkRelations] using hc
  | cons rr rels ih =>
    show (linkRelations (linkRelation c rr.1 rr.2) rels).nodes i =
      some { n with assoc := firstNodeRef (rr :: rels) i }
    by_cases href : refersToNode rr.2 i = true
    · have h1 : (linkRelation c rr.1 rr.2).nodes i =
          some { n with assoc := some rr.1 } := by
        rw [linkRelation_nodes_none c rr.1 rr.2 i n hc ha, if_pos href]
      have hf : firstNodeRef (rr :: rels) i = some rr.1 := by
        unfold firstNodeRef
        exact congrArg (Option.map (fun rr => rr.1))
          (@List.find?_cons_of_pos _ (fun rr => refersToNode rr.2 i) rr rels href)
      rw [hf]
      exact linkRelations_nodes_some rels _ i _ rr.1 h1 rfl
    · have h1 : (linkRelation c rr.1 rr.2).nodes i = some n := by
        rw [linkRelation_nodes_none c rr.1 rr.2 i n hc ha,
          if_neg (fun hcon => href hcon)]
      have hf : firstNodeRef (rr :: rels) i = firstNodeRef rels i := by
        unfold firstNodeRef
        exact congrArg (Option.map (fun rr => rr.1))
          (@List.find?_cons_of_neg _ (fun rr => refersToNode rr.2 i) rr rels
            (fun hcon => href hcon))
      rw [hf]
      exact ih _ h1

/-- C9: after the linking pass over every cached relation, each cached way
and node holds at most one associated-street id: an entity whose slot was
empty ends with the id of the first relation in iteration order that
references it (none if no relation does), and an entity whose slot was
already set keeps its original association untouched. -/
theorem C9_linker_first_writer (c0 : Caches) (rels : List (Nat × OsmRelation)) :
    (∀ i w, c0.ways i = some w → w.assoc = none →
      (linkRelations c0 rels).ways i = some { w with assoc := firstWayRef rels i }) ∧
    (∀ i w a, c0.ways i = some w → w.assoc = some a →
      (linkRelations c0 rels).ways i = some w) ∧
    (∀ i n, c0.nodes i = some n → n.assoc = none →
      (linkRelations c0 rels).nodes i = some { n with assoc := firstNodeRef rels i }) ∧
    (∀ i n a, c0.nodes i = some n → n.assoc = some a →
      (linkRelations c0 rels).nodes i = some n) :=
  ⟨fun i w hc ha => linkRelations_ways_none rels c0 i w hc ha,
   fun i w a hc ha => linkRelations_ways_some rels c0 i w a hc ha,
   fun i n hc ha => linkRelations_nodes_none rels c0 i n hc ha,
   fun i n a hc ha => linkRelations_nodes_some rels c0 i n a hc ha⟩

/-- C9 witness: two relations 10 and 20 both referencing way 5 and node 7;
after linking, both entities are associated to relation 10, the first in
iteration order; a way 6 already associated to 99 keeps that association. -/
theorem C9_linker_first_writer_witness :
    (linkRelations
      ⟨fun i => if i = 7 then
          some ⟨[("addr:housenumber", "1")], ((0 : ℚ), (0 : ℚ)), none⟩ else none,
        fun i => if i = 5 then some ⟨[("addr:housenumber", "2")], [7], none⟩
          else if i = 6 then some ⟨[("addr:housenumber", "3")], [7], some 99⟩
          else none⟩
      [(10, ⟨[("name", "A")], [(5, "way", ""), (7, "node", ""), (6, "way", "")]⟩),
        (20, ⟨[("name", "B")], [(5, "way", ""), (7, "node", "")]⟩)]).ways 5 =
      some ⟨[("addr:housenumber", "2")], [7], some 10⟩ ∧
    (linkRelations
      ⟨fun i => if i = 7 then
          some ⟨[("addr:housenumber", "1")], ((0 : ℚ), (0 : ℚ)), none⟩ else none,
        fun i => if i = 5 then some ⟨[("addr:housenumber", "2")], [7], none⟩
          else if i = 6 then some ⟨[("addr:housenumber", "3")], [7], some 99⟩
          else none⟩
      [(10, ⟨[("name", "A")], [(5, "way", ""), (7, "node", ""), (6, "way", "")]⟩),
        (20, ⟨[("name", "B")], [(5, "way", ""), (7, "node", "")]⟩)]).nodes 7 =
      some ⟨[("addr:housenumber", "1")], ((0 : ℚ), (0 : ℚ)), some 10⟩ ∧
    (linkRelations
      ⟨fun i => if i = 7 then
          some ⟨[("addr:housenumber", "1")], ((0 : ℚ), (0 : ℚ)), none⟩ else none,
        fun i => if i = 5 then some ⟨[("addr:housenumber", "2")], [7], none⟩
          else if i = 6 then some ⟨[("addr:housenumber", "3")], [7], some 99⟩
          else none⟩
      [(10, ⟨[("name", "A")], [(5, "way", ""), (7, "node", ""), (6, "way", "")]⟩),
        (20, ⟨[("name", "B")], [(5, "way", ""), (7, "node", "")]⟩)]).ways 6 =
      some ⟨[("addr:housenumber", "3")], [7], some 99⟩ := by
  have h := C9_linker_first_writer
    ⟨fun i => if i = 7 then
        some ⟨[("addr:housenumber", "1")], ((0 : ℚ), (0 : ℚ)), none⟩ else none,
      fun i => if i = 5 then some ⟨[("addr:housenumber", "2")], [7], none⟩
        else if i = 6 then some ⟨[("addr:housenumber", "3")], [7], some 99⟩
        else none⟩
    [(10, ⟨[("name", "A")], [(5, "way", ""), (7, "node", ""), (6, "way", "")]⟩),
      (20, ⟨[("name", "B")], [(5, "way", ""), (7, "node", "")]⟩)]
  refine ⟨?_, ?_, ?_⟩
  · exact h.1 5 ⟨[("addr:housenumber", "2")], [7], none⟩ rfl rfl
  · exact h.2.2.1 7 ⟨[("addr:housenumber", "1")], ((0 : ℚ), (0 : ℚ)), none⟩ rfl rfl
  · exact h.2.1 6 ⟨[("addr:housenumber", "3")], [7], some 99⟩ 99 rfl rfl
